import Mathlib

/-!
Verification of the autoreporting pipeline (src/autoreporting.py).

The program reads per-model result tables (one row per image, with a
boolean-like column named "correct"), computes per-model accuracy and the
list of misidentified images, intersects the misidentified sets across all
models, and assembles an ordered list of report sections (a summary section
followed by one table section per model).

Shallow embedding conventions:
- A pandas DataFrame loaded by `csv_to_df` (read_csv with index_col=0) is
  modelled as a `Table`: an ordered list of rows, each an index string
  (the image identifier) together with the value of the "correct" column.
  A cell that is the boolean True is `some true`, the boolean False is
  `some false`, and any other value (NaN from a missing cell, a non-boolean
  string, ...) is `none`; pandas elementwise comparison `== True` /
  `== False` is false on such values, which the embedding mirrors by
  comparing against `some true` / `some false`.
- Python float division is modelled over `ℚ`.  Fallible code returns
  `Except AutoErr`: a Python statement that raises is modelled as
  `.error e`.  `AutoErr.divisionUndefined` is the zero-row accuracy
  failure (Python raises ZeroDivisionError at `number_correct /
  number_total`; the specification names this failure DivisionUndefined)
  and `AutoErr.emptyInput` is the empty-aggregation failure (Python's
  `set.intersection(*[])` raises for want of an argument; the
  specification names this failure EmptyInput).
- Filesystem access is modelled by passing the file's parsed content
  (`Table`) alongside its path: `csv_to_df` becomes the identity on the
  provided content.
- The Jinja templates are external collaborators; a rendered section is
  modelled as a `Section` value recording which template was invoked and
  with which variables.
-/

namespace AutoReport

/-- One loaded result table: row order preserved, each row is the index
string (first csv column, the image identifier) paired with the value of
the "correct" column (`some true` / `some false` for the two booleans,
`none` for anything else such as a missing cell). -/
structure Table where
  rows : List (String × Option Bool)
deriving DecidableEq

/-- The error channel of the embedded program.  Each constructor stands
for one concrete raise site of the Python code, under the name the
specification gives that failure. -/
inductive AutoErr where
  /-- Raised by `number_correct / number_total` when the table has zero
  rows (Python ZeroDivisionError). -/
  | divisionUndefined : AutoErr
  /-- Raised by `set.intersection(*sets)` when the list of sets is empty
  (Python TypeError: intersection needs at least one argument). -/
  | emptyInput : AutoErr
deriving DecidableEq

/-- `len(df[df["correct"] == True])` — the number of rows whose "correct"
cell is exactly the boolean True. -/
def number_correct (df : Table) : ℕ :=
  (df.rows.filter fun r => r.2 = some true).length

/-- `ModelResults._calculate_accuracy`: `number_correct / number_total`.
Python raises ZeroDivisionError when `number_total` is 0; the embedding
returns `AutoErr.divisionUndefined` there. -/
def _calculate_accuracy (df : Table) : Except AutoErr ℚ :=
  if df.rows.length = 0 then Except.error AutoErr.divisionUndefined
  else Except.ok ((number_correct df : ℚ) / (df.rows.length : ℚ))

/-- `ModelResults._get_misidentified_images`: the index values of the rows
whose "correct" cell is exactly the boolean False, in row order
(`df[df["correct"] == False].index.tolist()`). -/
def _get_misidentified_images (df : Table) : List String :=
  ((df.rows.filter fun r => r.2 = some false).map fun r => r.1)

/-- `os.path.split(filepath)[-1]` / `os.path.basename`: the characters
after the last `/`. -/
def basenameChars (s : String) : List Char :=
  ((s.toList.reverse.takeWhile fun c => c ≠ '/').reverse)

/-- Index of the last occurrence of `c`, if any. -/
def lastIndexOf (c : Char) : List Char → Option ℕ
  | [] => Option.none
  | x :: xs =>
    match lastIndexOf c xs with
    | Option.some i => Option.some (i + 1)
    | Option.none => if x = c then Option.some 0 else Option.none

/-- `os.path.splitext(b)[0]` for a path `b` with no directory separators:
cut at the last dot, unless every character before that dot is itself a
dot (so ".bashrc" or "..py" keep their dots). -/
def splitextRoot (b : List Char) : List Char :=
  match lastIndexOf '.' b with
  | Option.none => b
  | Option.some i => if (b.take i).any (fun c => c ≠ '.') then b.take i else b

/-- `s.split(sep)[0]` for a non-empty separator: the characters before the
first occurrence of `sep`, all of `s` when `sep` does not occur. -/
def splitHead (sep : List Char) : List Char → List Char
  | [] => []
  | c :: rest =>
    if sep.isPrefixOf (c :: rest) then []
    else c :: splitHead sep rest

/-- The separator the driver splits on: `"_results"`. -/
def resultsSep : List Char := "_results".toList

/-- The driver's model-name derivation (main, lines 110-111):
`os.path.splitext(os.path.basename(fp))[0].split("_results")[0]`. -/
def derive_model_name (fp : String) : String :=
  String.mk (splitHead resultsSep (splitextRoot (basenameChars fp)))

/-- The specification's wording of the model-name derivation, for
comparison with `derive_model_name`: strip the fixed suffix `_results`
from the base name without extension; if that suffix is absent, use the
full base name unchanged. -/
def spec_model_name (fp : String) : String :=
  let r := splitextRoot (basenameChars fp)
  if resultsSep.isSuffixOf r then String.mk (r.take (r.length - resultsSep.length))
  else String.mk r

/-- `ModelResults` after a successful `__init__`: the stored fields, in
construction order. -/
structure ModelResults where
  model_name : String
  filepath : String
  dataset : String
  df_results : Table
  number_of_images : ℕ
  accuracy : ℚ
  misidentified_images : List String
  number_misidentified : ℕ
deriving DecidableEq

/-- `ModelResults.__init__(model_name, filepath)` with the file's parsed
content passed explicitly (`csv_to_df` is filesystem access).  Computing
`self.accuracy` can raise, so construction is fallible. -/
def mkModelResults (model_name filepath : String) (df : Table) :
    Except AutoErr ModelResults :=
  match _calculate_accuracy df with
  | Except.error e => Except.error e
  | Except.ok acc =>
    let mis := _get_misidentified_images df
    Except.ok
      { model_name := model_name
        filepath := filepath
        dataset := String.mk (basenameChars filepath)
        df_results := df
        number_of_images := df.rows.length
        accuracy := acc
        misidentified_images := mis
        number_misidentified := mis.length }

/-- `set.intersection(*sets)`: left fold of intersection over a non-empty
list of sets; raises on the empty list (Python TypeError, named
EmptyInput by the specification). -/
def pyIntersection : List (Finset String) → Except AutoErr (Finset String)
  | [] => Except.error AutoErr.emptyInput
  | s :: rest => Except.ok (rest.foldl (fun a b => a ∩ b) s)

/-- `common_misidentified_images(list_model_results)`: build the list of
misidentified-image sets and intersect them all. -/
def common_misidentified_images (list_model_results : List ModelResults) :
    Except AutoErr (Finset String) :=
  pyIntersection
    (list_model_results.map fun model_results =>
      model_results.misidentified_images.toFinset)

/-- One rendered report section, recorded as the template invoked and the
variables passed to it.  `table` carries the variables of the
table-section template: the model name, the dataset name, and the
DataFrame rendered with `to_html(table_id=model_name)` (represented by
the table content and the table id). -/
inductive Section where
  | summary (model_results_list : List ModelResults)
      (number_misidentified : ℕ) : Section
  | table (model : String) (dataset : String) (t : Table)
      (table_id : String) : Section
deriving DecidableEq

/-- The table section built for one model (main, lines 127-131):
`table_section_template.render(model=..., dataset=..., table=
model_result.get_results_df_as_html())`, where `get_results_df_as_html`
tags the table with `table_id = model_name`. -/
def tableSectionOf (m : ModelResults) : Section :=
  Section.table m.model_name m.dataset m.df_results m.model_name

/-- The driver loop over `args.results_filepaths` (main, lines 108-113):
construct one `ModelResults` per input file, in order, aborting on the
first failure (a raised exception propagates). -/
def mkAllModelResults : List (String × Table) → Except AutoErr (List ModelResults)
  | [] => Except.ok []
  | (fp, t) :: rest =>
    match mkModelResults (derive_model_name fp) fp t with
    | Except.error e => Except.error e
    | Except.ok m =>
      match mkAllModelResults rest with
      | Except.error e => Except.error e
      | Except.ok ms => Except.ok (m :: ms)

/-- main, lines 108-131: build the model results, recompute the common
misidentified count inline (`len(set.intersection(*misidentified_images))`),
then assemble the section list by appending the summary section first and
one table section per model in loop order. -/
def mainSections (inputs : List (String × Table)) :
    Except AutoErr (List Section) :=
  match mkAllModelResults inputs with
  | Except.error e => Except.error e
  | Except.ok model_results =>
    match pyIntersection
        (model_results.map fun results => results.misidentified_images.toFinset) with
    | Except.error e => Except.error e
    | Except.ok common =>
      let number_misidentified := common.card
      Except.ok
        (model_results.foldl
          (fun sections m => sections ++ [tableSectionOf m])
          [Section.summary model_results number_misidentified])

/-! ### Example tables

The two tables of the specification's end-to-end scenario A, plus a table
with a cell that is neither boolean, used to instantiate theorems with
hypotheses. -/

/-- Scenario A, model Alpha: img1 correct, img2 and img3 misidentified. -/
def tableA : Table :=
  ⟨[("img1", some true), ("img2", some false), ("img3", some false)]⟩

/-- Scenario A, model Beta: img3 correct, img1 and img2 misidentified. -/
def tableB : Table :=
  ⟨[("img1", some false), ("img2", some false), ("img3", some true)]⟩

/-- A table whose second row has a "correct" cell that is neither True
nor False (a missing cell). -/
def tableC : Table :=
  ⟨[("img1", some true), ("img2", Option.none)]⟩

/-- A table in which every record is correct. -/
def tableAllCorrect : Table :=
  ⟨[("img1", some true), ("img2", some true)]⟩

/-! ### Helper lemmas -/

/-- On a table with at least one row, construction succeeds and every
stored field is the computed one. -/
theorem mkModelResults_ok (name fp : String) (t : Table) (h : t.rows ≠ []) :
    mkModelResults name fp t = Except.ok
      { model_name := name
        filepath := fp
        dataset := String.mk (basenameChars fp)
        df_results := t
        number_of_images := t.rows.length
        accuracy := (number_correct t : ℚ) / (t.rows.length : ℚ)
        misidentified_images := _get_misidentified_images t
        number_misidentified := (_get_misidentified_images t).length } := by
  have hlen : ¬ t.rows.length = 0 := by
    simpa [List.length_eq_zero] using h
  simp [mkModelResults, _calculate_accuracy, hlen]

/-! ### C1: accuracy is the correct count over the record count -/

/-- C1: for every ModelResults constructed from a table with at least one
record, the stored accuracy equals the count of records whose "correct"
field is exactly true, divided by the total record count. -/
theorem accuracy_eq_correct_over_total (name fp : String) (t : Table)
    (h : t.rows ≠ []) :
    ∃ m, mkModelResults name fp t = Except.ok m ∧
      m.accuracy = (number_correct t : ℚ) / (t.rows.length : ℚ) ∧
      m.number_of_images = t.rows.length :=
  ⟨_, mkModelResults_ok name fp t h, rfl, rfl⟩

/-- Witness for C1 at scenario A's Alpha table: the hypothesis holds and
the accuracy is 1/3. -/
theorem accuracy_eq_correct_over_total_witness :
    tableA.rows ≠ [] ∧
    (∃ m, mkModelResults "Alpha" "Alpha_results.csv" tableA = Except.ok m ∧
      m.accuracy = (number_correct tableA : ℚ) / (tableA.rows.length : ℚ) ∧
      m.number_of_images = tableA.rows.length) :=
  ⟨by decide,
    accuracy_eq_correct_over_total "Alpha" "Alpha_results.csv" tableA (by decide)⟩

/-! ### C2: aggregation over the empty list fails with EmptyInput -/

/-- C2: `common_misidentified_images` applied to the empty list fails with
the EmptyInput error (the intersection step rejects zero sets); it does
not return an empty set, a full set, or any other outcome. -/
theorem common_misidentified_images_nil_empty_input :
    common_misidentified_images [] = Except.error AutoErr.emptyInput := rfl

/-! ### C3: zero-record accuracy fails with DivisionUndefined -/

/-- C3: on a table with zero records, the accuracy computation — and with
it the whole construction — fails with the DivisionUndefined error rather
than returning any number. -/
theorem zero_rows_accuracy_division_undefined (name fp : String) (t : Table)
    (h : t.rows = []) :
    _calculate_accuracy t = Except.error AutoErr.divisionUndefined ∧
    mkModelResults name fp t = Except.error AutoErr.divisionUndefined := by
  constructor
  · simp [_calculate_accuracy, h]
  · simp [mkModelResults, _calculate_accuracy, h]

/-- Witness for C3 at the empty table. -/
theorem zero_rows_accuracy_division_undefined_witness :
    (Table.mk []).rows = [] ∧
    (_calculate_accuracy ⟨[]⟩ = Except.error AutoErr.divisionUndefined ∧
     mkModelResults "Empty" "Empty_results.csv" ⟨[]⟩ =
       Except.error AutoErr.divisionUndefined) :=
  ⟨rfl, zero_rows_accuracy_division_undefined "Empty" "Empty_results.csv" ⟨[]⟩ rfl⟩

/-! ### C5: model-name derivation -/

/-- The head of a split is a prefix of the string that was split. -/
theorem splitHead_isPrefix (sep : List Char) :
    ∀ s : List Char, splitHead sep s <+: s
  | [] => by simp [splitHead]
  | c :: rest => by
    by_cases hp : sep.isPrefixOf (c :: rest)
    · simp [splitHead, hp]
    · simp only [splitHead, if_neg hp]
      obtain ⟨u, hu⟩ := splitHead_isPrefix sep rest
      exact ⟨u, by rw [List.cons_append, hu]⟩

/-- No occurrence of the separator starts strictly before the end of the
split head: the head stops at the first occurrence. -/
theorem splitHead_length_le (sep : List Char) :
    ∀ (s : List Char) (i : ℕ), sep.isPrefixOf (s.drop i) = true →
      (splitHead sep s).length ≤ i
  | [], _, _ => by simp [splitHead]
  | c :: rest, i, h => by
    by_cases hp : sep.isPrefixOf (c :: rest)
    · simp [splitHead, hp]
    · cases i with
      | zero => exact absurd (by simpa using h) hp
      | succ j =>
        have ih := splitHead_length_le sep rest j (by simpa using h)
        simp only [splitHead, if_neg hp, List.length_cons]
        omega

/-- When the separator occurs nowhere, the split head is the whole
string. -/
theorem splitHead_eq_self (sep : List Char) :
    ∀ s : List Char, (∀ i, ¬ sep.isPrefixOf (s.drop i) = true) →
      splitHead sep s = s
  | [], _ => rfl
  | c :: rest, h => by
    have hp : ¬ sep.isPrefixOf (c :: rest) = true := by simpa using h 0
    simp only [splitHead, if_neg hp]
    exact congrArg (c :: ·)
      (splitHead_eq_self sep rest fun i => by simpa using h (i + 1))

/-- When the separator occurs somewhere, it occurs exactly at the end of
the split head. -/
theorem splitHead_finds_occ (sep : List Char) (hsep : sep ≠ []) :
    ∀ s : List Char, (∃ i, sep.isPrefixOf (s.drop i) = true) →
      sep.isPrefixOf (s.drop (splitHead sep s).length) = true
  | [], ⟨_, hi⟩ => by
    rw [List.drop_nil, List.isPrefixOf_iff_prefix] at hi
    exact absurd (List.prefix_nil.mp hi) hsep
  | c :: rest, ⟨i, hi⟩ => by
    by_cases hp : sep.isPrefixOf (c :: rest)
    · simp only [splitHead, if_pos hp, List.length_nil, List.drop_zero]
      exact hp
    · have hex : ∃ j, sep.isPrefixOf (rest.drop j) = true := by
        cases i with
        | zero => exact absurd (by simpa using hi) hp
        | succ j => exact ⟨j, by simpa using hi⟩
      have ih := splitHead_finds_occ sep hsep rest hex
      simp only [splitHead, if_neg hp, List.length_cons, List.drop_succ_cons]
      exact ih

/-- Counterexample for C5: on `"my_resultsfile.csv"` the driver splits on
the first occurrence of `_results` inside the base name and yields `"my"`,
while suffix-stripping (the claim's rule) would leave the base name
`"my_resultsfile"` unchanged since it does not end in `_results`. -/
theorem derive_model_name_ne_spec_model_name :
    derive_model_name "my_resultsfile.csv" = "my" ∧
    spec_model_name "my_resultsfile.csv" = "my_resultsfile" ∧
    derive_model_name "my_resultsfile.csv" ≠
      spec_model_name "my_resultsfile.csv" := by
  refine ⟨by decide, by decide, by decide⟩

/-- C5 (amended): for every input filepath, the model name is the portion
of the base name without extension that comes before the first occurrence
of `_results` anywhere in it; if `_results` does not occur, the full base
name is used unchanged.  In particular "VGG19_results.csv" yields "VGG19"
and "plainname.csv" yields "plainname". -/
theorem derive_model_name_first_occurrence :
    (∀ fp : String,
      derive_model_name fp =
        String.mk (splitHead resultsSep (splitextRoot (basenameChars fp))) ∧
      splitHead resultsSep (splitextRoot (basenameChars fp)) <+:
        splitextRoot (basenameChars fp) ∧
      (∀ i, resultsSep.isPrefixOf ((splitextRoot (basenameChars fp)).drop i) = true →
        (splitHead resultsSep (splitextRoot (basenameChars fp))).length ≤ i) ∧
      ((∀ i, ¬ resultsSep.isPrefixOf ((splitextRoot (basenameChars fp)).drop i) = true) →
        splitHead resultsSep (splitextRoot (basenameChars fp)) =
          splitextRoot (basenameChars fp)) ∧
      ((∃ i, resultsSep.isPrefixOf ((splitextRoot (basenameChars fp)).drop i) = true) →
        resultsSep.isPrefixOf
          ((splitextRoot (basenameChars fp)).drop
            (splitHead resultsSep (splitextRoot (basenameChars fp))).length) = true)) ∧
    derive_model_name "VGG19_results.csv" = "VGG19" ∧
    derive_model_name "plainname.csv" = "plainname" := by
  refine ⟨fun fp => ⟨rfl, splitHead_isPrefix _ _, splitHead_length_le _ _,
    splitHead_eq_self _ _, splitHead_finds_occ _ (by decide) _⟩, by decide, by decide⟩

/-- Witness for C5's amended theorem at `"my_resultsfile.csv"`: `_results`
occurs at index 2 of the base name `"my_resultsfile"`, and the derived
model name indeed stops there. -/
theorem derive_model_name_first_occurrence_witness :
    resultsSep.isPrefixOf
      ((splitextRoot (basenameChars "my_resultsfile.csv")).drop 2) = true ∧
    (splitHead resultsSep (splitextRoot (basenameChars "my_resultsfile.csv"))).length ≤ 2 :=
  ⟨by decide,
    (derive_model_name_first_occurrence.1 "my_resultsfile.csv").2.2.1 2 (by decide)⟩

/-! ### C4 and C9: properties of the misidentified-set intersection -/

/-- Membership in the left fold of set intersection. -/
theorem mem_foldl_inter (x : String) :
    ∀ (rest : List (Finset String)) (init : Finset String),
      (x ∈ rest.foldl (fun a b => a ∩ b) init ↔ x ∈ init ∧ ∀ t ∈ rest, x ∈ t)
  | [], init => by simp
  | s :: rest, init => by
    rw [List.foldl_cons, mem_foldl_inter x rest (init ∩ s)]
    simp only [Finset.mem_inter, List.forall_mem_cons]
    tauto

/-- On a non-empty list of model results, the aggregation succeeds and the
resulting set holds exactly the images misidentified by every model. -/
theorem common_misidentified_images_ok (l : List ModelResults) (h : l ≠ []) :
    ∃ s, common_misidentified_images l = Except.ok s ∧
      ∀ x, (x ∈ s ↔ ∀ m ∈ l, x ∈ m.misidentified_images.toFinset) := by
  match l with
  | [] => exact absurd rfl h
  | m :: rest =>
    refine ⟨_, rfl, fun x => ?_⟩
    rw [mem_foldl_inter x (rest.map fun mr => mr.misidentified_images.toFinset)
      m.misidentified_images.toFinset]
    simp only [List.forall_mem_cons, List.forall_mem_map]

/-- C4: on every non-empty list of model results the aggregation succeeds;
any permutation of the list yields the same set; the set is a subset of
every individual model's misidentified set; and its size is at most each
individual set's size, hence at most the smallest. -/
theorem common_misidentified_images_perm_subset (l : List ModelResults)
    (h : l ≠ []) :
    ∃ s, common_misidentified_images l = Except.ok s ∧
      (∀ l', l.Perm l' → common_misidentified_images l' = Except.ok s) ∧
      (∀ m ∈ l, s ⊆ m.misidentified_images.toFinset) ∧
      (∀ m ∈ l, s.card ≤ m.misidentified_images.toFinset.card) := by
  obtain ⟨s, hs, hmem⟩ := common_misidentified_images_ok l h
  have hsub : ∀ m ∈ l, s ⊆ m.misidentified_images.toFinset := by
    intro m hm x hx
    exact (hmem x).mp hx m hm
  refine ⟨s, hs, ?_, hsub, fun m hm => Finset.card_le_card (hsub m hm)⟩
  intro l' hperm
  have h' : l' ≠ [] := by
    intro h0
    exact h (List.Perm.eq_nil (h0 ▸ hperm))
  obtain ⟨s', hs', hmem'⟩ := common_misidentified_images_ok l' h'
  have : s' = s := by
    ext x
    rw [hmem x, hmem' x]
    constructor
    · intro hall m hm
      exact hall m (hperm.mem_iff.mp hm)
    · intro hall m hm
      exact hall m (hperm.mem_iff.mpr hm)
  rw [hs', this]

/-- A constructed ModelResults value of scenario A's Alpha table, used
only to instantiate theorems about lists of model results. -/
def mrAlpha : ModelResults :=
  { model_name := "Alpha"
    filepath := "Alpha_results.csv"
    dataset := "Alpha_results.csv"
    df_results := tableA
    number_of_images := 3
    accuracy := 1 / 3
    misidentified_images := ["img2", "img3"]
    number_misidentified := 2 }

/-- A constructed ModelResults value of scenario A's Beta table. -/
def mrBeta : ModelResults :=
  { model_name := "Beta"
    filepath := "Beta_results.csv"
    dataset := "Beta_results.csv"
    df_results := tableB
    number_of_images := 3
    accuracy := 1 / 3
    misidentified_images := ["img1", "img2"]
    number_misidentified := 2 }

/-- Witness for C4 at the two scenario-A models. -/
theorem common_misidentified_images_perm_subset_witness :
    ([mrAlpha, mrBeta] : List ModelResults) ≠ [] ∧
    (∃ s, common_misidentified_images [mrAlpha, mrBeta] = Except.ok s ∧
      (∀ l', List.Perm [mrAlpha, mrBeta] l' →
        common_misidentified_images l' = Except.ok s) ∧
      (∀ m ∈ [mrAlpha, mrBeta], s ⊆ m.misidentified_images.toFinset) ∧
      (∀ m ∈ [mrAlpha, mrBeta],
        s.card ≤ m.misidentified_images.toFinset.card)) :=
  ⟨List.cons_ne_nil _ _,
    common_misidentified_images_perm_subset [mrAlpha, mrBeta]
      (List.cons_ne_nil _ _)⟩

/-- C9: the aggregation of a single model is that model's own
misidentified set; when every record of the model's table is correct the
aggregate is the empty set and the report pipeline still succeeds. -/
theorem common_misidentified_images_singleton :
    (∀ m : ModelResults,
      common_misidentified_images [m] = Except.ok m.misidentified_images.toFinset) ∧
    (∀ (name fp : String) (t : Table), t.rows ≠ [] →
      (∀ r ∈ t.rows, r.2 = some true) →
      ∃ m, mkModelResults name fp t = Except.ok m ∧
        common_misidentified_images [m] = Except.ok (∅ : Finset String) ∧
        ∃ secs, mainSections [(fp, t)] = Except.ok secs) := by
  constructor
  · intro m
    rfl
  · intro name fp t hne hall
    have hmis : _get_misidentified_images t = [] := by
      rw [_get_misidentified_images, List.map_eq_nil_iff, List.filter_eq_nil_iff]
      intro r hr
      simp [hall r hr]
    refine ⟨_, mkModelResults_ok name fp t hne, ?_, ?_⟩
    · simp [common_misidentified_images, pyIntersection, hmis]
    · simp only [mainSections, mkAllModelResults,
        mkModelResults_ok (derive_model_name fp) fp t hne, pyIntersection,
        List.map_cons, List.map_nil]
      exact ⟨_, rfl⟩

/-- Witness for C9 at a single all-correct model table. -/
theorem common_misidentified_images_singleton_witness :
    tableAllCorrect.rows ≠ [] ∧
    (∀ r ∈ tableAllCorrect.rows, r.2 = some true) ∧
    (∃ m, mkModelResults "All" "All_results.csv" tableAllCorrect = Except.ok m ∧
      common_misidentified_images [m] = Except.ok (∅ : Finset String) ∧
      ∃ secs, mainSections [("All_results.csv", tableAllCorrect)] = Except.ok secs) :=
  ⟨by decide, by decide,
    common_misidentified_images_singleton.2 "All" "All_results.csv" tableAllCorrect
      (by decide) (by decide)⟩

/-! ### C6, C7, C10: counting the correct, the misidentified and the rest -/

/-- Rows counted as misidentified plus rows counted as correct never
exceed the row count. -/
theorem count_false_add_count_true_le :
    ∀ rows : List (String × Option Bool),
      (rows.filter fun r => r.2 = some false).length +
        (rows.filter fun r => r.2 = some true).length ≤ rows.length
  | [] => Nat.le_refl 0
  | r :: rest => by
    have ih := count_false_add_count_true_le rest
    match hv : r.2 with
    | Option.none => simp [List.filter_cons, hv]; omega
    | Option.some true => simp [List.filter_cons, hv]; omega
    | Option.some false => simp [List.filter_cons, hv]; omega

/-- On a table whose "correct" cells are all boolean, the two counts
partition the rows exactly. -/
theorem count_false_add_count_true_eq :
    ∀ rows : List (String × Option Bool), (∀ r ∈ rows, r.2 ≠ Option.none) →
      (rows.filter fun r => r.2 = some false).length +
        (rows.filter fun r => r.2 = some true).length = rows.length
  | [], _ => rfl
  | r :: rest, h => by
    have ih := count_false_add_count_true_eq rest
      fun x hx => h x (List.mem_cons_of_mem r hx)
    match hv : r.2 with
    | Option.none => exact absurd hv (h r (List.mem_cons_self r rest))
    | Option.some true => simp [List.filter_cons, hv]; omega
    | Option.some false => simp [List.filter_cons, hv]; omega

/-- A row whose "correct" cell is neither boolean makes the partition
strict. -/
theorem count_false_add_count_true_lt :
    ∀ rows : List (String × Option Bool), (∃ r ∈ rows, r.2 = Option.none) →
      (rows.filter fun r => r.2 = some false).length +
        (rows.filter fun r => r.2 = some true).length < rows.length
  | [], h => by simp at h
  | r :: rest, h => by
    match hv : r.2 with
    | Option.none =>
      have ih := count_false_add_count_true_le rest
      simp [List.filter_cons, hv]
      omega
    | Option.some b =>
      have hex : ∃ x ∈ rest, x.2 = Option.none := by
        obtain ⟨x, hx, hxv⟩ := h
        rcases List.mem_cons.mp hx with hxr | hxrest
        · rw [hxr] at hxv
          rw [hxv] at hv
          exact absurd hv (by simp)
        · exact ⟨x, hxrest, hxv⟩
      have ih := count_false_add_count_true_lt rest hex
      match b with
      | true => simp [List.filter_cons, hv]; omega
      | false => simp [List.filter_cons, hv]; omega

/-- C7: for every result table (all "correct" cells boolean, as the data
model requires), the number of misidentified images plus the number of
correct records equals the total record count. -/
theorem misidentified_add_correct_eq_image_count (t : Table)
    (hb : ∀ r ∈ t.rows, r.2 ≠ Option.none) :
    (_get_misidentified_images t).length + number_correct t = t.rows.length := by
  have h := count_false_add_count_true_eq t.rows hb
  simpa [_get_misidentified_images, number_correct] using h

/-- Witness for C7 at scenario A's Alpha table: 2 misidentified + 1
correct = 3 records. -/
theorem misidentified_add_correct_eq_image_count_witness :
    (∀ r ∈ tableA.rows, r.2 ≠ Option.none) ∧
    (_get_misidentified_images tableA).length + number_correct tableA =
      tableA.rows.length :=
  ⟨by decide, misidentified_add_correct_eq_image_count tableA (by decide)⟩

/-- C6: on every non-empty result table (all "correct" cells boolean),
construction succeeds and the accuracy lies in [0, 1]; it is 1 exactly
when the misidentified list is empty, and 0 exactly when every record is
incorrect. -/
theorem accuracy_bounds_and_extremes (name fp : String) (t : Table)
    (hne : t.rows ≠ []) (hb : ∀ r ∈ t.rows, r.2 ≠ Option.none) :
    ∃ m, mkModelResults name fp t = Except.ok m ∧
      0 ≤ m.accuracy ∧ m.accuracy ≤ 1 ∧
      (m.accuracy = 1 ↔ m.misidentified_images = []) ∧
      (m.accuracy = 0 ↔ ∀ r ∈ t.rows, r.2 = some false) := by
  refine ⟨_, mkModelResults_ok name fp t hne, ?_, ?_, ?_, ?_⟩
  all_goals simp only
  · positivity
  · rw [div_le_one (by exact_mod_cast List.length_pos.mpr hne)]
    exact_mod_cast List.length_filter_le _ t.rows
  · rw [div_eq_one_iff_eq (by exact_mod_cast (List.length_pos.mpr hne).ne'),
      Nat.cast_inj]
    constructor
    · intro hlen
      have heq : (t.rows.filter fun r => r.2 = some true) = t.rows :=
        (List.filter_sublist _).eq_of_length hlen
      rw [_get_misidentified_images, List.map_eq_nil_iff, List.filter_eq_nil_iff]
      intro r hr
      have : ∀ r ∈ t.rows, r.2 = some true := by
        intro x hx
        have := List.filter_eq_self.mp heq x hx
        simpa using this
      simp [this r hr]
    · intro hmis
      have hmis' : _get_misidentified_images t = [] := hmis
      have hfil : (t.rows.filter fun r => r.2 = some false) = [] :=
        List.map_eq_nil_iff.mp hmis'
      have hnof : ∀ r ∈ t.rows, ¬ r.2 = some false := by
        intro r hr
        have := List.filter_eq_nil_iff.mp hfil r hr
        simpa using this
      have hall : ∀ r ∈ t.rows, r.2 = some true := by
        intro r hr
        match hv : r.2 with
        | Option.none => exact absurd hv (hb r hr)
        | Option.some false => exact absurd hv (hnof r hr)
        | Option.some true => rfl
      rw [number_correct, List.filter_eq_self.mpr (by intro a ha; simpa using hall a ha)]
  · have hn : (t.rows.length : ℚ) ≠ 0 := by
      exact_mod_cast (List.length_pos.mpr hne).ne'
    rw [div_eq_zero_iff]
    constructor
    · rintro (h0 | h0)
      · have hnc : number_correct t = 0 := by exact_mod_cast h0
        have hfil : (t.rows.filter fun r => r.2 = some true) = [] :=
          List.length_eq_zero.mp hnc
        have hnot : ∀ r ∈ t.rows, ¬ r.2 = some true := by
          intro r hr
          have := List.filter_eq_nil_iff.mp hfil r hr
          simpa using this
        intro r hr
        match hv : r.2 with
        | Option.none => exact absurd hv (hb r hr)
        | Option.some true => exact absurd hv (hnot r hr)
        | Option.some false => rfl
      · exact absurd h0 hn
    · intro hall
      left
      have hfil : (t.rows.filter fun r => r.2 = some true) = [] := by
        rw [List.filter_eq_nil_iff]
        intro r hr
        simp [hall r hr]
      simp [number_correct, hfil]

/-- Witness for C6 at scenario A's Alpha table. -/
theorem accuracy_bounds_and_extremes_witness :
    tableA.rows ≠ [] ∧ (∀ r ∈ tableA.rows, r.2 ≠ Option.none) ∧
    (∃ m, mkModelResults "Alpha" "A/tableA.csv" tableA = Except.ok m ∧
      0 ≤ m.accuracy ∧ m.accuracy ≤ 1 ∧
      (m.accuracy = 1 ↔ m.misidentified_images = []) ∧
      (m.accuracy = 0 ↔ ∀ r ∈ tableA.rows, r.2 = some false)) :=
  ⟨by decide, by decide,
    accuracy_bounds_and_extremes "Alpha" "A/tableA.csv" tableA (by decide) (by decide)⟩

/-- C10: a record whose "correct" cell is neither True nor False counts
toward the image total but toward neither the correct count nor the
misidentified list, so correct count plus misidentified count falls short
of the total and accuracy plus the misidentified fraction stays strictly
below 1. -/
theorem unparsed_correct_counts_nowhere (name fp : String) (t : Table)
    (h : ∃ r ∈ t.rows, r.2 = Option.none) :
    ∃ m, mkModelResults name fp t = Except.ok m ∧
      m.number_of_images = t.rows.length ∧
      number_correct t + m.number_misidentified < m.number_of_images ∧
      m.accuracy + (m.number_misidentified : ℚ) / (m.number_of_images : ℚ) < 1 := by
  have hne : t.rows ≠ [] := by
    obtain ⟨r, hr, _⟩ := h
    exact List.ne_nil_of_mem hr
  have hlt := count_false_add_count_true_lt t.rows h
  refine ⟨_, mkModelResults_ok name fp t hne, rfl, ?_, ?_⟩
  · simp only [_get_misidentified_images, List.length_map, number_correct]
    omega
  · simp only [_get_misidentified_images, List.length_map]
    rw [div_add_div_same, div_lt_one (by exact_mod_cast List.length_pos.mpr hne)]
    have hncdef : number_correct t =
        (t.rows.filter fun r => r.2 = some true).length := rfl
    exact_mod_cast (by omega : number_correct t +
      (t.rows.filter fun r => r.2 = some false).length < t.rows.length)

/-- Witness for C10 at a table with a missing "correct" cell. -/
theorem unparsed_correct_counts_nowhere_witness :
    (∃ r ∈ tableC.rows, r.2 = Option.none) ∧
    (∃ m, mkModelResults "C" "C_results.csv" tableC = Except.ok m ∧
      m.number_of_images = tableC.rows.length ∧
      number_correct tableC + m.number_misidentified < m.number_of_images ∧
      m.accuracy + (m.number_misidentified : ℚ) / (m.number_of_images : ℚ) < 1) :=
  ⟨by decide, unparsed_correct_counts_nowhere "C" "C_results.csv" tableC (by decide)⟩

/-! ### C8: report assembly order -/

/-- When every input table has at least one row, the driver loop succeeds
and produces one ModelResults per input file, in order, with the derived
model name, the base-name dataset and the file's own table. -/
theorem mkAllModelResults_ok :
    ∀ inputs : List (String × Table), (∀ p ∈ inputs, p.2.rows ≠ []) →
      ∃ models, mkAllModelResults inputs = Except.ok models ∧
        List.Forall₂ (fun (p : String × Table) (m : ModelResults) =>
          m.model_name = derive_model_name p.1 ∧
          m.dataset = String.mk (basenameChars p.1) ∧
          m.df_results = p.2) inputs models
  | [], _ => ⟨[], rfl, List.Forall₂.nil⟩
  | (fp, t) :: rest, h => by
    have hmk := mkModelResults_ok (derive_model_name fp) fp t
      (h (fp, t) (List.mem_cons_self _ _))
    obtain ⟨ms, hms, hfa⟩ := mkAllModelResults_ok rest
      fun p hp => h p (List.mem_cons_of_mem _ hp)
    refine ⟨{ model_name := derive_model_name fp
              filepath := fp
              dataset := String.mk (basenameChars fp)
              df_results := t
              number_of_images := t.rows.length
              accuracy := (number_correct t : ℚ) / (t.rows.length : ℚ)
              misidentified_images := _get_misidentified_images t
              number_misidentified := (_get_misidentified_images t).length } :: ms,
      ?_, ?_⟩
    · simp only [mkAllModelResults, hmk, hms]
    · exact List.Forall₂.cons ⟨rfl, rfl, rfl⟩ hfa

/-- Folding "append one element" from an initial list is the initial list
followed by the map. -/
theorem foldl_append_singleton_eq_map {α β : Type} (f : α → β) :
    ∀ (l : List α) (init : List β),
      l.foldl (fun acc x => acc ++ [f x]) init = init ++ l.map f
  | [], init => by simp
  | x :: rest, init => by
    rw [List.foldl_cons, foldl_append_singleton_eq_map f rest (init ++ [f x])]
    simp

/-- C8: when every input file has at least one record, the assembled
report is exactly the summary section followed by one table section per
model, in the same order as the input file list (the models themselves
being in input order, each built from its own file). -/
theorem report_sections_order (inputs : List (String × Table))
    (hne : inputs ≠ []) (hrows : ∀ p ∈ inputs, p.2.rows ≠ []) :
    ∃ models n, mkAllModelResults inputs = Except.ok models ∧
      List.Forall₂ (fun (p : String × Table) (m : ModelResults) =>
        m.model_name = derive_model_name p.1 ∧
        m.dataset = String.mk (basenameChars p.1) ∧
        m.df_results = p.2) inputs models ∧
      mainSections inputs = Except.ok
        (Section.summary models n :: models.map tableSectionOf) := by
  obtain ⟨models, hmods, hfa⟩ := mkAllModelResults_ok inputs hrows
  have hmne : models ≠ [] := by
    intro h0
    rw [h0] at hfa
    exact hne (List.forall₂_nil_right_iff.mp hfa)
  obtain ⟨m, ms, rfl⟩ := List.exists_cons_of_ne_nil hmne
  refine ⟨m :: ms,
    ((ms.map fun mr => mr.misidentified_images.toFinset).foldl
      (fun a b => a ∩ b) m.misidentified_images.toFinset).card,
    hmods, hfa, ?_⟩
  simp only [mainSections, hmods, List.map_cons, pyIntersection]
  rw [foldl_append_singleton_eq_map]
  simp

/-- Witness for C8 at the two scenario-A input files. -/
theorem report_sections_order_witness :
    ([("Alpha_results.csv", tableA), ("Beta_results.csv", tableB)] :
      List (String × Table)) ≠ [] ∧
    (∀ p ∈ ([("Alpha_results.csv", tableA), ("Beta_results.csv", tableB)] :
      List (String × Table)), p.2.rows ≠ []) ∧
    (∃ models n,
      mkAllModelResults [("Alpha_results.csv", tableA), ("Beta_results.csv", tableB)] =
        Except.ok models ∧
      List.Forall₂ (fun (p : String × Table) (m : ModelResults) =>
        m.model_name = derive_model_name p.1 ∧
        m.dataset = String.mk (basenameChars p.1) ∧
        m.df_results = p.2)
        [("Alpha_results.csv", tableA), ("Beta_results.csv", tableB)] models ∧
      mainSections [("Alpha_results.csv", tableA), ("Beta_results.csv", tableB)] =
        Except.ok (Section.summary models n :: models.map tableSectionOf)) :=
  ⟨List.cons_ne_nil _ _, by decide,
    report_sections_order [("Alpha_results.csv", tableA), ("Beta_results.csv", tableB)]
      (List.cons_ne_nil _ _) (by decide)⟩

end AutoReport
